import Mathlib

/-!
Verification of the generic MCP server's core components, shallowly embedded
from the Python sources:

* app/services/http_client.py — template resolution, pruning, step execution
* app/services/security.py   — auth injection
* app/main.py                — operation dispatch
* app/core/dynamic_models.py — multi-pass model construction
* run.py                     — stdio JSON-RPC loop

JSON-like values are modelled by an inductive type; numbers are integers
(floating-point values are outside the scope of the verified claims).
Python dicts are association lists keeping insertion order, as Python
guarantees.  Strings are Lean strings (lists of unicode characters), matching
Python strings at the code-point level.
-/

/-- JSON-like value, as produced by json.loads and consumed by the runtime. -/
inductive Json where
  | null : Json
  | bool (b : Bool) : Json
  | num (n : Int) : Json
  | str (s : String) : Json
  | arr (xs : List Json) : Json
  | obj (kvs : List (String × Json)) : Json
deriving Repr

/-- Dict lookup: first binding of the key, as dict.get on a Python dict
whose keys are unique. -/
def dictGet {α : Type} (m : List (String × α)) (k : String) : Option α :=
  (m.find? (fun p => p.1 == k)).map (fun p => p.2)

/-- Dict assignment d[k] = v: replaces the binding in place when the key is
present, appends otherwise (Python dict insertion-order semantics). -/
def dictSet {α : Type} : List (String × α) → String → α → List (String × α)
  | [], k, v => [(k, v)]
  | (k', v') :: rest, k, v =>
    if k' = k then (k, v) :: rest else (k', v') :: dictSet rest k v

/-- Python truthiness of a JSON-like value: None, False, 0, "", [] and
empty dicts are falsy. -/
def jsonTruthy : Json → Bool
  | .null => false
  | .bool b => b
  | .num n => n != 0
  | .str s => s != ""
  | .arr xs => !xs.isEmpty
  | .obj kvs => !kvs.isEmpty

/-- Truthiness of an optional value (a .get that may miss). -/
def jsonTruthyOpt : Option Json → Bool
  | none => false
  | some j => jsonTruthy j

/-- The left brace character, kept out of literals for hygiene. -/
def lbrace : Char := Char.ofNat 123

/-- The right brace character. -/
def rbrace : Char := Char.ofNat 125

/-- Splits a character list at every character satisfying p, keeping empty
pieces — the behaviour of Python str.split(sep) with a one-character
separator, and of re.split with a single-character alternation. -/
def splitChars (p : Char → Bool) : List Char → List (List Char)
  | [] => [[]]
  | c :: rest =>
    match splitChars p rest with
    | [] => [[]]
    | h :: t => if p c then [] :: h :: t else (c :: h) :: t

/-- ASCII decimal digit test; models str.isdigit on the ASCII inputs the
configuration language uses. -/
def isAsciiDigit (c : Char) : Bool := decide ('0' ≤ c ∧ c ≤ '9')

/-- Value of a list of decimal digits, most significant first (int(p)). -/
def digitsToNat (l : List Char) : Nat :=
  l.foldl (fun acc c => acc * 10 + (c.toNat - 48)) 0

/-- Python str.strip(): whitespace removed from both ends. -/
def pyIsSpace (c : Char) : Bool :=
  c == ' ' || c == '\t' || c == '\n' || c == '\r' ||
    c == Char.ofNat 11 || c == Char.ofNat 12

/-- Python str.strip() over a Lean string. -/
def pyStrip (s : String) : String :=
  String.mk (((s.data.dropWhile pyIsSpace).reverse.dropWhile pyIsSpace).reverse)

/-- One token of a resolution path: a dict key or a sequence index. -/
inductive PathTok where
  | key (k : String) : PathTok
  | idx (n : Nat) : PathTok
deriving DecidableEq, Repr

/-- http_client._parse_path_tokens: split on dots, then split each part on
single brackets, dropping empty pieces; all-digit pieces become indexes. -/
def parse_path_tokens (path : String) : List PathTok :=
  (splitChars (fun c => c == '.') path.data).flatMap (fun part =>
    (splitChars (fun c => c == '[' || c == ']') part).filterMap (fun p =>
      if p.isEmpty then none
      else if p.all isAsciiDigit then some (.idx (digitsToNat p))
      else some (.key (String.mk p))))

/-- One step of http_client._resolve_value's loop.  An integer token indexes
any Python Sequence — lists and strings alike (indexing a string yields a
one-character string); a key token reads a dict.  Everything else raises
KeyError, modelled as Except.error with the source's message. -/
def resolveTok : PathTok → Json → Except String Json
  | .idx n, .arr xs =>
    if h : n < xs.length then .ok (xs.get ⟨n, h⟩)
    else .error ("Index " ++ toString n ++ " out of range (len=" ++ toString xs.length ++ ").")
  | .idx n, .str s =>
    if h : n < s.data.length then .ok (.str (String.mk [s.data.get ⟨n, h⟩]))
    else .error ("Index " ++ toString n ++ " out of range (len=" ++ toString s.data.length ++ ").")
  | .idx n, _ => .error ("Cannot index non-list value with " ++ toString n ++ ".")
  | .key k, .obj kvs =>
    match dictGet kvs k with
    | some v => .ok v
    | none => .error ("Key '" ++ k ++ "' does not exist.")
  | .key k, _ => .error ("Cannot access key '" ++ k ++ "' on non-dict value.")

/-- The token loop of http_client._resolve_value. -/
def resolveToks : List PathTok → Json → Except String Json
  | [], v => .ok v
  | t :: rest, v =>
    match resolveTok t v with
    | .ok w => resolveToks rest w
    | .error e => .error e

/-- http_client._resolve_value(path, data). -/
def resolve_value (path : String) (data : Json) : Except String Json :=
  resolveToks (parse_path_tokens path) data

/-- Scan for the closing brace of a lazy placeholder match: the nearest
right brace, with no newline before it (the regex dot does not cross
newlines).  Returns (content, remainder after the brace). -/
def findClose : List Char → Option (List Char × List Char)
  | [] => none
  | c :: rest =>
    if c = rbrace then some ([], rest)
    else if c = '\n' then none
    else (findClose rest).map (fun p => (c :: p.1, p.2))

/-- Leftmost match of the placeholder regex in a character list:
(prefix before the match, path between the braces, remainder after).
Mirrors re.search/re.sub's scan with the pattern dollar-lbrace-lazy-rbrace. -/
def findPH : List Char → Option (List Char × List Char × List Char)
  | [] => none
  | c :: rest =>
    match (if c = '$' ∧ rest.head? = some lbrace then findClose rest.tail else none) with
    | some (mid, after) => some ([], mid, after)
    | none => (findPH rest).map (fun t => (c :: t.1, t.2.1, t.2.2))

theorem findClose_length {cs mid after : List Char}
    (h : findClose cs = some (mid, after)) : after.length < cs.length := by
  induction cs generalizing mid after with
  | nil => simp [findClose] at h
  | cons c rest ih =>
    unfold findClose at h
    split at h
    · simp at h
      obtain ⟨-, h2⟩ := h
      subst h2
      simp
    · split at h
      · simp at h
      · match hr : findClose rest with
        | none => rw [hr] at h; simp at h
        | some (m, a) =>
          rw [hr] at h; simp at h
          have := ih hr
          have h2 := h.2
          subst h2
          simp
          omega

theorem findPH_length {cs pre mid after : List Char}
    (h : findPH cs = some (pre, mid, after)) : after.length < cs.length := by
  induction cs generalizing pre mid after with
  | nil => simp [findPH] at h
  | cons c rest ih =>
    unfold findPH at h
    split at h
    · rename_i heq
      split at heq
      · simp at h
        have := findClose_length heq
        have h2 := h.2.2
        subst h2
        have : rest.tail.length ≤ rest.length := by
          cases rest <;> simp
        simp
        omega
      · simp at heq
    · match hr : findPH rest with
      | none => rw [hr] at h; simp at h
      | some (p, m, a) =>
        rw [hr] at h; simp at h
        have := ih hr
        have h2 := h.2.2
        subst h2
        simp
        omega

/-- Hex digit character (lowercase), as Python's json escapes use. -/
def hexDigit (n : Nat) : Char :=
  if n < 10 then Char.ofNat (48 + n) else Char.ofNat (87 + n)

/-- One character of a JSON string dump, escaped as json.dumps (default
ensure_ascii) escapes it.  Code points above 0xFFFF would use surrogate
pairs in CPython; the configurations under verification are ASCII. -/
def escapeChar (c : Char) : List Char :=
  if c = '"' then ['\\', '"']
  else if c = '\\' then ['\\', '\\']
  else if c = '\n' then ['\\', 'n']
  else if c = '\t' then ['\\', 't']
  else if c = '\r' then ['\\', 'r']
  else if c.toNat = 8 then ['\\', 'b']
  else if c.toNat = 12 then ['\\', 'f']
  else if c.toNat < 32 ∨ 128 ≤ c.toNat then
    ['\\', 'u', hexDigit (c.toNat / 4096 % 16), hexDigit (c.toNat / 256 % 16),
      hexDigit (c.toNat / 16 % 16), hexDigit (c.toNat % 16)]
  else [c]

/-- Escaped, quoted JSON string body. -/
def dumpStr (s : String) : List Char :=
  '"' :: (s.data.flatMap escapeChar) ++ ['"']

mutual

/-- json.dumps(value, separators=(",", ":")): compact JSON text, keys in
insertion order. -/
def dumpCompact : Json → String
  | .null => "null"
  | .bool b => cond b "true" "false"
  | .num n => toString n
  | .str s => String.mk (dumpStr s)
  | .arr xs => String.mk ('[' :: dumpArr xs ++ [']'])
  | .obj kvs => String.mk (lbrace :: dumpObj kvs ++ [rbrace])

/-- Comma-separated dump of array elements. -/
def dumpArr : List Json → List Char
  | [] => []
  | [x] => (dumpCompact x).data
  | x :: y :: rest => (dumpCompact x).data ++ ',' :: dumpArr (y :: rest)

/-- Comma-separated dump of object entries. -/
def dumpObj : List (String × Json) → List Char
  | [] => []
  | [(k, v)] => dumpStr k ++ ':' :: (dumpCompact v).data
  | (k, v) :: p :: rest => dumpStr k ++ ':' :: (dumpCompact v).data ++ ',' :: dumpObj (p :: rest)

end

/-- The inline stringification rules of _substitute_templates_in_string's
_replacer: None to "null", booleans to "true"/"false", dicts and lists to
compact JSON, everything else through str(). -/
def stringifyInline : Json → String
  | .null => "null"
  | .bool b => cond b "true" "false"
  | .obj kvs => dumpCompact (.obj kvs)
  | .arr xs => dumpCompact (.arr xs)
  | .num n => toString n
  | .str s => s

/-- Replacement text for one matched placeholder: the resolved value
stringified, or the whole match left verbatim when resolution fails. -/
def replaceOne (data : Json) (mid : List Char) : List Char :=
  match resolve_value (pyStrip (String.mk mid)) data with
  | .ok v => (stringifyInline v).data
  | .error _ => '$' :: lbrace :: mid ++ [rbrace]

/-- The re.sub scan of _substitute_templates_in_string: replace each
placeholder match and continue after it.  Fuel-driven structural recursion;
each match consumes at least one character (findPH_length), so fuel equal
to the text length always suffices and the zero-fuel branch is never taken
on the lengths the wrapper passes. -/
def subGo (data : Json) : Nat → List Char → List Char
  | 0, cs => cs
  | fuel + 1, cs =>
    match findPH cs with
    | none => cs
    | some (pre, mid, after) => pre ++ replaceOne data mid ++ subGo data fuel after

/-- http_client._substitute_templates_in_string(text, data). -/
def substitute_templates_in_string (text : String) (data : Json) : String :=
  String.mk (subGo data text.data.length text.data)

/-- re.fullmatch of the placeholder pattern: succeeds exactly when the
string starts with a dollar-lbrace, ends with rbrace, and the characters
between contain no newline; the lazy group then stretches to everything
between the first lbrace and the final rbrace.  Returns group(1). -/
def fullmatchList : List Char → Option (List Char)
  | c1 :: c2 :: rest =>
    if c1 = '$' ∧ c2 = lbrace ∧ rest.getLast? = some rbrace ∧ rest.dropLast.all (fun c => c ≠ '\n') then
      some rest.dropLast
    else none
  | _ => none

/-- re.fullmatch of the placeholder pattern over a string; returns
group(1). -/
def fullmatchPH (s : String) : Option String :=
  (fullmatchList s.data).map String.mk

mutual

/-- http_client._resolve_templates_in_obj(obj, data): recursive template
resolution.  A string that is in full one placeholder match resolves to the
raw value (or stays put on failure); any other string goes through inline
substitution. -/
def resolve_templates_in_obj (obj : Json) (data : Json) : Json :=
  match obj with
  | .obj kvs => .obj (resolveObjList kvs data)
  | .arr xs => .arr (resolveArrList xs data)
  | .str s =>
    match fullmatchPH s with
    | some g =>
      match resolve_value (pyStrip g) data with
      | .ok v => v
      | .error _ => .str s
    | none => .str (substitute_templates_in_string s data)
  | v => v

/-- Entry-wise resolution of a dict. -/
def resolveObjList (kvs : List (String × Json)) (data : Json) : List (String × Json) :=
  match kvs with
  | [] => []
  | (k, v) :: rest => (k, resolve_templates_in_obj v data) :: resolveObjList rest data

/-- Element-wise resolution of a list. -/
def resolveArrList (xs : List Json) (data : Json) : List Json :=
  match xs with
  | [] => []
  | v :: rest => resolve_templates_in_obj v data :: resolveArrList rest data

end

/-- Does a string still contain a placeholder match (the _PLACEHOLDER_RE
search in _prune_unresolved)? -/
def hasPlaceholder (s : String) : Bool :=
  (findPH s.data).isSome

mutual

/-- http_client's _prune_unresolved: none stands for the _UNSET sentinel.
Strings still containing a placeholder are dropped; dicts and lists are
rebuilt keeping only the entries whose pruned value survives. -/
def prune_unresolved (val : Json) : Option Json :=
  match val with
  | .obj kvs => some (.obj (pruneObjList kvs))
  | .arr xs => some (.arr (pruneArrList xs))
  | .str s => if hasPlaceholder s then none else some (.str s)
  | v => some v

/-- Entry-wise pruning of a dict. -/
def pruneObjList (kvs : List (String × Json)) : List (String × Json) :=
  match kvs with
  | [] => []
  | (k, v) :: rest =>
    match prune_unresolved v with
    | some w => (k, w) :: pruneObjList rest
    | none => pruneObjList rest

/-- Element-wise pruning of a list. -/
def pruneArrList (xs : List Json) : List Json :=
  match xs with
  | [] => []
  | v :: rest =>
    match prune_unresolved v with
    | some w => w :: pruneArrList rest
    | none => pruneArrList rest

end

/-- ASCII lowercasing of one character, as str.lower acts on the ASCII
header names in play. -/
def charLower (c : Char) : Char :=
  if 65 ≤ c.toNat ∧ c.toNat ≤ 90 then Char.ofNat (c.toNat + 32) else c

/-- Python str.lower over a Lean string (ASCII range). -/
def strLower (s : String) : String := String.mk (s.data.map charLower)

/-- An outbound httpx request under construction: method, URL text, query
parameters and headers added by auth, and the JSON body.  The body is
doubly optional: none is "no body argument"; some none is the _UNSET
sentinel surviving at top level of a pruned body. -/
structure HttpRequest where
  method : String
  url : String
  queryParams : List (String × String)
  headers : List (String × String)
  body : Option (Option Json)
deriving Repr

/-- A downstream response as the executor observes it: status code, the
content-type header, the raw text, and the result of response.json()
(none when the text is not valid JSON, in which case .json() raises). -/
structure HttpResponse where
  status : Nat
  contentType : String
  text : String
  jsonBody : Option Json
deriving Repr

/-- security.apply_auth's credential source: a live inbound request whose
starlette Headers look keys up case-insensitively, or the plain dict
stored under the provider's __auth_headers__ key (stdio mode), looked up
by exact string match. -/
inductive AuthProvider where
  | request (headers : List (String × String)) : AuthProvider
  | dict (authHeaders : List (String × String)) : AuthProvider
deriving Repr

/-- headers.get(key) for either credential source: case-insensitive for a
live request's Headers, exact for the plain dict. -/
def headersGet : AuthProvider → String → Option String
  | .request hs, key => ((hs.find? (fun p => strLower p.1 == strLower key)).map (fun p => p.2))
  | .dict hs, key => ((hs.find? (fun p => p.1 == key)).map (fun p => p.2))

/-- A security scheme dict: .get of each field the code reads.  An absent
scheme (falsy dict or a None from the scheme table) is Option.none at the
call sites. -/
structure AuthScheme where
  schemeType : Option String
  inLoc : Option String
  keyName : Option String
  httpScheme : Option String
deriving Repr

/-- httpx Headers assignment request.headers[k] = v: replaces a
case-insensitively matching entry in place (dropping later duplicates),
appends when absent. -/
def setHeaderList : List (String × String) → String → String → List (String × String)
  | [], k, v => [(k, v)]
  | (k', v') :: rest, k, v =>
    if strLower k' = strLower k then
      (k, v) :: rest.filter (fun p => strLower p.1 != strLower k)
    else (k', v') :: setHeaderList rest k v

/-- Write a header on the outgoing request. -/
def setHeader (req : HttpRequest) (k v : String) : HttpRequest :=
  { req with headers := setHeaderList req.headers k v }

/-- url.copy_with(params=dict-merge): existing parameter replaced in place,
new one appended. -/
def setQueryParam (req : HttpRequest) (k v : String) : HttpRequest :=
  { req with queryParams := dictSet req.queryParams k v }

/-- security.apply_auth(outgoing_request, auth_scheme, auth_provider).
Raised ValueErrors are modelled as Except.error carrying the message. -/
def apply_auth (req : HttpRequest) (scheme : Option AuthScheme) (provider : AuthProvider) :
    Except String HttpRequest :=
  match scheme with
  | none => .ok req
  | some sch =>
    if sch.schemeType = some "apiKey" then
      match sch.keyName with
      | none => .error "Auth scheme of type 'apiKey' is missing a 'name'."
      | some keyName =>
        if keyName = "" then .error "Auth scheme of type 'apiKey' is missing a 'name'."
        else
          match headersGet provider (strLower keyName) with
          | none => .error ("Required auth header/key '" ++ keyName ++ "' not found.")
          | some v =>
            if v = "" then .error ("Required auth header/key '" ++ keyName ++ "' not found.")
            else if sch.inLoc = some "header" then .ok (setHeader req keyName v)
            else if sch.inLoc = some "query" then .ok (setQueryParam req keyName v)
            else .ok req
    else if sch.schemeType = some "http" ∧ (sch.httpScheme = some "bearer" ∨ sch.httpScheme = some "basic") then
      match headersGet provider "authorization" with
      | none => .error "Required 'Authorization' header not found for http auth scheme."
      | some v =>
        if v = "" then .error "Required 'Authorization' header not found for http auth scheme."
        else .ok (setHeader req "Authorization" v)
    else .ok req

/-- Python str.upper for the step method (ASCII). -/
def charUpper (c : Char) : Char :=
  if 97 ≤ c.toNat ∧ c.toNat ≤ 122 then Char.ofNat (c.toNat - 32) else c

/-- Python str.upper over a Lean string (ASCII range). -/
def strUpper (s : String) : String := String.mk (s.data.map charUpper)

/-- One configured step: step.get("step_id") may miss; method, url and the
optional body template are the dict's fields read by the executor. -/
structure Step where
  step_id : Option String
  method : String
  url : String
  body : Option Json
deriving Repr

/-- The walrus-test if step.get("step_id") is falsy: absent or empty. -/
def truthyStepId : Option String → Bool
  | none => false
  | some s => s != ""

/-- Errors escaping execute_http_steps, one constructor per exception the
source can raise. -/
inductive StepError where
  | configError (msg : String) : StepError
  | authError (msg : String) : StepError
  | httpStatus (status : Nat) (body : String) : StepError
  | jsonDecode : StepError
  | indexError : StepError
  | keyError (k : String) : StepError
deriving Repr

/-- The request built by one loop iteration, before auth: the URL template
substituted (never pruned), the body template resolved with type
preservation and then pruned (only when the template is truthy). -/
def buildStepRequest (step : Step) (ctx : List (String × Json)) : HttpRequest :=
  { method := strUpper step.method
    url := substitute_templates_in_string step.url (.obj ctx)
    queryParams := []
    headers := []
    body :=
      match step.body with
      | some tpl =>
        if jsonTruthy tpl then some (prune_unresolved (resolve_templates_in_obj tpl (.obj ctx)))
        else none
      | none => none }

/-- httpx raise_for_status: a response outside 2xx raises. -/
def is2xx (status : Nat) : Bool := decide (200 ≤ status ∧ status < 300)

/-- The substring test "application/json" in content_type. -/
def containsSub (needle hay : String) : Bool :=
  (hay.data.tails.any (fun t => needle.data.isPrefixOf t))

/-- Parse one downstream response as the executor does: response.json()
when the content type mentions JSON (raising on undecodable text), raw
text otherwise. -/
def parseResponse (resp : HttpResponse) : Except StepError Json :=
  if containsSub "application/json" resp.contentType then
    match resp.jsonBody with
    | some j => .ok j
    | none => .error .jsonDecode
  else .ok (.str resp.text)

/-- The step loop of execute_http_steps, threading the template context and
recording every request given to client.send, in order.  The oracle stands
for the downstream servers: the response each sent request receives. -/
def execAux (oracle : HttpRequest → HttpResponse) (scheme : Option AuthScheme)
    (provider : AuthProvider) :
    List Step → List (String × Json) → List HttpRequest →
    Except StepError (List (String × Json)) × List HttpRequest
  | [], ctx, trace => (.ok ctx, trace)
  | step :: rest, ctx, trace =>
    if truthyStepId step.step_id then
      match apply_auth (buildStepRequest step ctx) scheme provider with
      | .error e => (.error (.authError e), trace)
      | .ok req =>
        if is2xx (oracle req).status then
          match parseResponse (oracle req) with
          | .error e => (.error e, trace ++ [req])
          | .ok rdata =>
            execAux oracle scheme provider rest
              (dictSet ctx ((step.step_id).getD "") rdata) (trace ++ [req])
        else (.error (.httpStatus (oracle req).status (oracle req).text), trace ++ [req])
    else (.error (.configError "Each step must include a unique 'step_id'."), trace)

/-- The initial template context: path_params, then the decoded request
body when present. -/
def initCtx (path_params : List (String × Json)) (incoming_body : Option Json) :
    List (String × Json) :=
  ("path_params", Json.obj path_params) ::
    (match incoming_body with
     | some b => [("incoming_request_body", b)]
     | none => [])

/-- http_client.execute_http_steps, with the downstream servers abstracted
as an oracle from requests to responses.  Returns the result (or the
exception) together with the list of requests actually sent. -/
def execute_http_steps (oracle : HttpRequest → HttpResponse) (steps : List Step)
    (auth_scheme : Option AuthScheme) (path_params : List (String × Json))
    (auth_provider : AuthProvider) (incoming_body : Option Json) :
    Except StepError Json × List HttpRequest :=
  match execAux oracle auth_scheme auth_provider steps (initCtx path_params incoming_body) [] with
  | (.error e, tr) => (.error e, tr)
  | (.ok ctx, tr) =>
    match steps.getLast? with
    | none => (.error .indexError, tr)
    | some last =>
      match last.step_id with
      | none => (.error (.keyError "step_id"), tr)
      | some sid =>
        match dictGet ctx sid with
        | some v => (.ok v, tr)
        | none => (.error (.keyError sid), tr)

/-- One declared parameter of an operation: name and location. -/
structure Param where
  pname : String
  ploc : String
deriving Repr

/-- An operation's configuration, the fields main.dispatch_mcp_operation
reads.  requestBody is the raw dict (truthiness matters); source_type is
source_config.get("type"); steps is source_config["steps"]. -/
structure OpConfig where
  requestBody : Option Json
  parameters : List Param
  auth_scheme_name : Option String
  source_type : Option String
  steps : List Step
deriving Repr

/-- The loaded configuration: operations and security_schemes tables. -/
structure McpConfig where
  operations : List (String × OpConfig)
  security_schemes : List (String × AuthScheme)

/-- Errors of the dispatcher, one per HTTPException it raises (status,
meaning), plus propagated step-executor exceptions. -/
inductive DispatchError where
  | notFound (opId : String) : DispatchError
  | badRequest (msg : String) : DispatchError
  | notImplementedErr (msg : String) : DispatchError
  | stepErr (e : StepError) : DispatchError
deriving Repr

/-- Navigate requestBody.get("content").get("application/json").get("schema")
.get("$ref"): the reference naming the body schema, when every level is
present and a string results. -/
def refOfRequestBody (requestBody : Option Json) : Option String :=
  match requestBody with
  | some (.obj kvs) =>
    match dictGet kvs "content" with
    | some (.obj c) =>
      match dictGet c "application/json" with
      | some (.obj aj) =>
        match dictGet aj "schema" with
        | some (.obj sc) =>
          match dictGet sc "$ref" with
          | some (.str r) => some r
          | _ => none
        | _ => none
      | _ => none
    | _ => none
  | _ => none

/-- ref.split('/')[-1]. -/
def lastSegment (ref : String) : String :=
  String.mk (((splitChars (fun c => c == '/') ref.data).getLast?).getD [])

/-- main.dispatch_mcp_operation.  The dynamic-model collaborator (pydantic
validation of params against the named schema) is abstracted as the models
argument: for a schema name, the validator when such a model exists, which
either produces the synthesized body or fails as the except-branch does.
Returns the result or error, with the requests the step executor sent. -/
def dispatch_mcp_operation (cfg : McpConfig)
    (models : String → Option (List (String × Json) → Except String Json))
    (oracle : HttpRequest → HttpResponse)
    (operation_id : String) (params : List (String × Json))
    (auth_provider : AuthProvider) (body : Option Json) :
    Except DispatchError Json × List HttpRequest :=
  match dictGet cfg.operations operation_id with
  | none => (.error (.notFound operation_id), [])
  | some op =>
    let bodyRes : Except DispatchError (Option Json) :=
      if body.isNone ∧ ¬ params.isEmpty ∧ jsonTruthyOpt op.requestBody then
        match refOfRequestBody op.requestBody with
        | some ref =>
          match models (lastSegment ref) with
          | some validate =>
            match validate params with
            | .ok b => .ok (some b)
            | .error e => .error (.badRequest ("Invalid RPC parameters for body: " ++ e))
          | none => .ok none
        | none => .ok none
      else if body.isNone ∧ jsonTruthyOpt op.requestBody then
        .error (.badRequest "Request body is required for this operation.")
      else .ok body
    match bodyRes with
    | .error e => (.error e, [])
    | .ok finalBody =>
      let auth_scheme := (op.auth_scheme_name).bind (fun n => dictGet cfg.security_schemes n)
      if op.source_type = some "http" then
        let path_params := (op.parameters.filter (fun p => p.ploc == "path")).map
          (fun p => (p.pname, (dictGet params p.pname).getD Json.null))
        match execute_http_steps oracle op.steps auth_scheme path_params auth_provider finalBody with
        | (.ok v, tr) => (.ok v, tr)
        | (.error e, tr) => (.error (.stepErr e), tr)
      else
        (.error (.notImplementedErr "Source type not implemented."), [])

/-- A property schema dict as dynamic_models reads it: the optional $ref,
type, items and default attributes ($ref is consulted first, as in
get_field_type). -/
inductive PropSchema where
  | mk (refAttr : Option String) (typeAttr : Option String)
       (items : Option PropSchema) (defaultAttr : Option Json) : PropSchema
deriving Repr

/-- The $ref attribute. -/
def PropSchema.refOf : PropSchema → Option String
  | .mk r _ _ _ => r

/-- The default attribute. -/
def PropSchema.defaultOf : PropSchema → Option Json
  | .mk _ _ _ d => d

/-- One schema definition: ordered properties and the required list. -/
structure SchemaDef where
  properties : List (String × PropSchema)
  required : List String
deriving Repr

/-- The type a pydantic field receives: a previously created model, a
List of an element type (bare List when the element type came out None),
a primitive from the type_mapping, or Any. -/
inductive FieldType where
  | modelRef (s : String) : FieldType
  | listOf (t : Option FieldType) : FieldType
  | prim (s : String) : FieldType
  | anyType : FieldType

/-- dynamic_models' type_mapping.get(t, Any). -/
def typeMapping : Option String → FieldType
  | some "string" => .prim "str"
  | some "number" => .prim "float"
  | some "integer" => .prim "int"
  | some "boolean" => .prim "bool"
  | _ => .anyType

/-- One created field: its type, whether required (default ...), and the
declared default otherwise. -/
structure FieldSpec where
  ftype : FieldType
  requiredField : Bool
  defaultVal : Option Json

/-- A created model: its ordered fields. -/
def ModelDef := List (String × FieldSpec)

/-- The model cache built so far. -/
def ModelCache := List (String × ModelDef)

/-- dynamic_models.get_field_type(prop_details) against the current cache:
a $ref resolves when the named model was already created (None otherwise);
an array wraps its item type, falling back to a bare List exactly when the
item is an unresolved $ref; otherwise the type_mapping applies.  An absent
items dict behaves as the empty dict, whose field type is Any. -/
def get_field_type (cache : List (String × ModelDef)) : PropSchema → Option FieldType
  | .mk (some r) _ _ _ =>
    match dictGet cache (lastSegment r) with
    | some _ => some (.modelRef (lastSegment r))
    | none => none
  | .mk none t items _ =>
    if t = some "array" then
      some (.listOf (match items with
        | some p => get_field_type cache p
        | none => some .anyType))
    else some (typeMapping t)

/-- The per-schema field loop: fails (dependencies_met = False) exactly
when some property's field type is None while it carries a $ref — which is
the only way get_field_type returns None. -/
def buildFields (cache : List (String × ModelDef)) (required : List String) :
    List (String × PropSchema) → Option ModelDef
  | [] => some []
  | (pn, pd) :: rest =>
    match get_field_type cache pd with
    | none => none
    | some ft =>
      (buildFields cache required rest).map
        (fun fs => (pn, ⟨ft, required.contains pn,
          if required.contains pn then none else pd.defaultOf⟩) :: fs)

/-- One pass of the while loop: try each pending schema in order against a
cache that grows during the pass (a model created earlier in the same pass
is visible to later ones); returns the grown cache and the names processed
this pass. -/
def onePass (schemas : List (String × SchemaDef)) :
    List String → List (String × ModelDef) → List (String × ModelDef) × List String
  | [], cache => (cache, [])
  | name :: rest, cache =>
    let schema := (dictGet schemas name).getD ⟨[], []⟩
    match buildFields cache schema.required schema.properties with
    | some fields =>
      let res := onePass schemas rest (dictSet cache name fields)
      (res.1, name :: res.2)
    | none => onePass schemas rest cache

/-- The while loop of create_pydantic_models with its two exits: the pass
budget (passes < max_passes) modelled as fuel, and the no-progress check
raising RuntimeError — modelled as Except.error carrying the names of the
schemas still unresolved, exactly those the message interpolates. -/
def modelLoop (schemas : List (String × SchemaDef)) :
    Nat → List String → List (String × ModelDef) →
    Except (List String) (List (String × ModelDef))
  | _, [], cache => .ok cache
  | 0, _ :: _, cache => .ok cache
  | fuel + 1, toProcess@(_ :: _), cache =>
    let res := onePass schemas toProcess cache
    if res.2.isEmpty then .error toProcess
    else modelLoop schemas fuel (toProcess.filter (fun s => !res.2.contains s)) res.1

/-- dynamic_models.create_pydantic_models(schemas): all schema names
pending, max_passes = len(schemas) + 1, empty cache. -/
def create_pydantic_models (schemas : List (String × SchemaDef)) :
    Except (List String) (List (String × ModelDef)) :=
  modelLoop schemas (schemas.length + 1) (schemas.map (fun p => p.1)) []

/-- The JSON-RPC result line the stdio loop prints to stdout. -/
def rpcResultObj (idv : Json) (result : Json) : Json :=
  .obj [("jsonrpc", .str "2.0"), ("id", idv), ("result", result)]

/-- The JSON-RPC error object the stdio loop's except-branch prints (to
stderr). -/
def rpcErrorObj (idv : Json) (data : String) : Json :=
  .obj [("jsonrpc", .str "2.0"), ("id", idv),
    ("error", .obj [("code", .num (-32603)), ("message", .str "Internal error"),
      ("data", .str data)])]

/-- request_data.get(key, default) on a parsed line. -/
def jsonGetD (j : Json) (k : String) (d : Json) : Json :=
  match j with
  | .obj kvs => (dictGet kvs k).getD d
  | _ => d

/-- What the loop observes of one run: the JSON objects written to stdout,
those written to stderr, and whether the loop was terminated by an
uncaught exception. -/
structure StdioOutcome where
  stdoutLines : List Json
  stderrLines : List Json
  crashed : Bool
deriving Repr

/-- A stand-in for the json.JSONDecodeError text interpolated into the
error object's data field. -/
def jsonDecodeErrMsg : String := "Expecting value: line 1 column 1 (char 0)"

/-- run.run_stdio_mode over a finite input (EOF after the last line).
Each input line is given as its json.loads outcome (none = malformed).
The second argument is the loop's request_data variable: none while it is
still unbound (before the first successful json.loads).  The dispatcher is
abstracted as an oracle from (method, params) to a result or an exception
message.  A malformed line reaches the except-branch, which reads
request_data.get("id"): with request_data unbound this raises NameError,
terminating the loop (crashed = true, remaining lines unread); with a
previous request bound it emits an error object carrying the PREVIOUS
request's id on stderr and continues. -/
def run_stdio_mode (dispatchO : Json → Json → Except String Json) :
    List (Option Json) → Option Json → StdioOutcome
  | [], _ => ⟨[], [], false⟩
  | none :: _, none => ⟨[], [], true⟩
  | none :: rest, some prev =>
    let out := run_stdio_mode dispatchO rest (some prev)
    ⟨out.stdoutLines,
      rpcErrorObj (jsonGetD prev "id" .null) jsonDecodeErrMsg :: out.stderrLines,
      out.crashed⟩
  | some j :: rest, _ =>
    match dispatchO (jsonGetD j "method" .null) (jsonGetD j "params" (.obj [])) with
    | .ok r =>
      let out := run_stdio_mode dispatchO rest (some j)
      ⟨rpcResultObj (jsonGetD j "id" .null) r :: out.stdoutLines, out.stderrLines, out.crashed⟩
    | .error msg =>
      let out := run_stdio_mode dispatchO rest (some j)
      ⟨out.stdoutLines, rpcErrorObj (jsonGetD j "id" .null) msg :: out.stderrLines, out.crashed⟩

/-! ## Concrete fixtures used by closed theorems -/

/-- A 200 JSON response with an empty-object body. -/
def okResp : HttpResponse := ⟨200, "application/json", "\x7b\x7d", some (.obj [])⟩

/-- A downstream that answers every request with okResp. -/
def oracle200 : HttpRequest → HttpResponse := fun _ => okResp

/-- A downstream that answers the first fixture URL with 200 and anything
else with a 500 carrying the body "boom". -/
def oracleC2 : HttpRequest → HttpResponse := fun r =>
  if r.url = "http://t/1" then okResp else ⟨500, "text/plain", "boom", none⟩

/-- Fixture step one. -/
def stepS1 : Step := ⟨some "s1", "get", "http://t/1", none⟩

/-- Fixture step two (its URL draws the 500 from oracleC2). -/
def stepS2 : Step := ⟨some "s2", "get", "http://t/2", none⟩

/-- Fixture step three (never reached in the failing runs). -/
def stepS3 : Step := ⟨some "s3", "get", "http://t/3", none⟩

/-- A step whose dict has no step_id key. -/
def stepNoId : Step := ⟨none, "get", "http://t/x", none⟩

/-- A step with an unresolved placeholder in the URL and a body template
with one unresolvable entry next to a plain one. -/
def stepBodyFx : Step :=
  ⟨some "sb", "post", "http://x/$\x7bunset\x7d",
    some (.obj [("a", .str "$\x7bunset\x7d"), ("b", .num 1)])⟩

/-- The request stepS1 produces from the initial context. -/
def reqS1 : HttpRequest := ⟨"GET", "http://t/1", [], [], none⟩

/-- The request stepS2 produces. -/
def reqS2 : HttpRequest := ⟨"GET", "http://t/2", [], [], none⟩

/-- The context after stepS1 succeeds from empty inputs. -/
def ctxAfterS1 : List (String × Json) := [("path_params", .obj []), ("s1", .obj [])]

/-- Context binding a to 1 and b to 2. -/
def ctxAB : Json := .obj [("a", .num 1), ("b", .num 2)]

/-- Context binding x to boolean true. -/
def ctxX : Json := .obj [("x", .bool true)]

/-- Context binding a to the string "hi". -/
def ctxStr : Json := .obj [("a", .str "hi")]

/-- An api-key/header scheme named X-API-Key. -/
def schemeXak : AuthScheme := ⟨some "apiKey", some "header", some "X-API-Key", none⟩

/-- A bare outgoing fixture request. -/
def reqBare : HttpRequest := ⟨"GET", "http://d", [], [], none⟩

/-- An operation that declares a required request body (a truthy
requestBody dict) over one http step. -/
def opNeedsBody : OpConfig := ⟨some (.obj [("content", .obj [])]), [], none, some "http", [stepS1]⟩

/-- A configuration table holding only opNeedsBody under "op1". -/
def cfgNeedsBody : McpConfig := ⟨[("op1", opNeedsBody)], []⟩

/-- A property that is a reference to the named component schema. -/
def refProp (r : String) : PropSchema := .mk (some ("#/components/schemas/" ++ r)) none none none

/-- Two schemas referring to each other: a genuine circular reference. -/
def circSchemas : List (String × SchemaDef) :=
  [("A", ⟨[("b", refProp "B")], []⟩), ("B", ⟨[("a", refProp "A")], []⟩)]

/-- A dispatcher oracle that always succeeds. -/
def stdioOkOracle : Json → Json → Except String Json := fun _ _ => .ok (.str "ok")

/-- A well-formed JSON-RPC request line. -/
def validReq : Json :=
  .obj [("jsonrpc", .str "2.0"), ("method", .str "m"), ("params", .obj []), ("id", .num 7)]

/-- Specification-side characterisation of path resolution (C3, amended):
the empty path names the value itself; a key segment reads an entry of a
map; an index segment reads an in-range element of a sequence — or, as the
code additionally allows (Python strings are Sequences), the character at
that position of a string, yielding a one-character string.  Resolution
fails exactly when no such derivation exists: an absent key, an
out-of-range index, an index into a value that is neither a sequence nor a
string, or a key into a non-map. -/
inductive ResolvesTo : List PathTok → Json → Json → Prop where
  | nil (v : Json) : ResolvesTo [] v v
  | key (k : String) (rest : List PathTok) (kvs : List (String × Json)) (v w : Json) :
      dictGet kvs k = some v → ResolvesTo rest v w →
      ResolvesTo (.key k :: rest) (.obj kvs) w
  | arrIdx (n : Nat) (rest : List PathTok) (xs : List Json) (v w : Json) :
      xs.get? n = some v → ResolvesTo rest v w →
      ResolvesTo (.idx n :: rest) (.arr xs) w
  | strIdx (n : Nat) (rest : List PathTok) (s : String) (c : Char) (w : Json) :
      s.data.get? n = some c → ResolvesTo rest (.str (String.mk [c])) w →
      ResolvesTo (.idx n :: rest) (.str s) w

/-! ## Helper lemmas -/

theorem charOfNat_toNat {n : Nat} (h : n < 55296) : (Char.ofNat n).toNat = n := by
  unfold Char.ofNat
  rw [dif_pos (Or.inl h)]
  rfl

theorem charLower_toNat_of_upper {c : Char} (h : 65 ≤ c.toNat ∧ c.toNat ≤ 90) :
    (charLower c).toNat = c.toNat + 32 := by
  unfold charLower
  rw [if_pos h]
  exact charOfNat_toNat (by omega)

theorem charLower_of_not_upper {c : Char} (h : ¬(65 ≤ c.toNat ∧ c.toNat ≤ 90)) :
    charLower c = c := by
  unfold charLower
  rw [if_neg h]

theorem charLower_not_upper (c : Char) :
    ¬(65 ≤ (charLower c).toNat ∧ (charLower c).toNat ≤ 90) := by
  by_cases h : 65 ≤ c.toNat ∧ c.toNat ≤ 90
  · rw [charLower_toNat_of_upper h]
    omega
  · rw [charLower_of_not_upper h]
    exact h

theorem charLower_idem (c : Char) : charLower (charLower c) = charLower c :=
  charLower_of_not_upper (charLower_not_upper c)

theorem strLower_idem (s : String) : strLower (strLower s) = strLower s := by
  unfold strLower
  simp only [List.map_map]
  congr 1
  simp [Function.comp, charLower_idem]

theorem execAux_append (oracle : HttpRequest → HttpResponse) (scheme : Option AuthScheme)
    (provider : AuthProvider) (l₁ l₂ : List Step) (ctx : List (String × Json))
    (tr : List HttpRequest) :
    execAux oracle scheme provider (l₁ ++ l₂) ctx tr =
      match execAux oracle scheme provider l₁ ctx tr with
      | (.ok ctx', tr') => execAux oracle scheme provider l₂ ctx' tr'
      | (.error e, tr') => (.error e, tr') := by
  induction l₁ generalizing ctx tr with
  | nil => simp [execAux]
  | cons step rest ih =>
    simp only [List.cons_append, execAux]
    by_cases h : truthyStepId step.step_id = true
    · simp only [h, if_true]
      cases ha : apply_auth (buildStepRequest step ctx) scheme provider with
      | error e => simp
      | ok req =>
        by_cases h2 : is2xx (oracle req).status = true
        · simp only [h2, if_true]
          cases hp : parseResponse (oracle req) with
          | error e => simp
          | ok rdata => simp [ih]
        · simp only [Bool.not_eq_true] at h2
          simp [h2]
    · simp only [Bool.not_eq_true] at h
      simp [h]

/-! ## Claim theorems -/

/-- C10: calling the step executor with an empty step list never returns a
result: the loop runs zero times and steps[-1] raises IndexError (the
model's indexError) before any value can be produced, with no request
sent; a non-empty step list is thus a precondition for the documented
return of the last step's stored value. -/
theorem C10_empty_steps_never_return (oracle : HttpRequest → HttpResponse)
    (scheme : Option AuthScheme) (pp : List (String × Json)) (provider : AuthProvider)
    (body : Option Json) :
    execute_http_steps oracle [] scheme pp provider body = (.error .indexError, []) := rfl

/-- C8 (code bug evidence): when the first input line is malformed, the
stdio loop's except-branch reads the unbound request_data and the NameError
terminates the loop — nothing is written and the valid second line is never
processed — whereas the same valid line alone is answered on stdout.  This
contradicts the claim that a malformed request produces a JSON-RPC error
object without terminating the loop. -/
theorem C8_stdio_crash_on_first_malformed_line :
    run_stdio_mode stdioOkOracle [none, some validReq] none = ⟨[], [], true⟩ ∧
      run_stdio_mode stdioOkOracle [some validReq] none
        = ⟨[rpcResultObj (.num 7) (.str "ok")], [], false⟩ :=
  ⟨rfl, rfl⟩

/-- C6: dispatching an operation that declares a required request body with
no decoded body and empty params skips body synthesis entirely (the models
collaborator is universally quantified and never consulted) and fails with
the BadRequest for a missing body, making no downstream call. -/
theorem C6_missing_body_empty_params (cfg : McpConfig)
    (models : String → Option (List (String × Json) → Except String Json))
    (oracle : HttpRequest → HttpResponse) (opId : String) (op : OpConfig)
    (provider : AuthProvider)
    (hop : dictGet cfg.operations opId = some op)
    (hrb : jsonTruthyOpt op.requestBody = true) :
    dispatch_mcp_operation cfg models oracle opId [] provider none
      = (.error (.badRequest "Request body is required for this operation."), []) := by
  unfold dispatch_mcp_operation
  rw [hop]
  simp [hrb]

/-- C6 witness: the concrete fixture operation with a required body,
dispatched with empty params and no body. -/
theorem C6_missing_body_empty_params_witness :
    dispatch_mcp_operation cfgNeedsBody (fun _ => none) oracle200 "op1" [] (.request []) none
      = (.error (.badRequest "Request body is required for this operation."), []) :=
  C6_missing_body_empty_params cfgNeedsBody (fun _ => none) oracle200 "op1" opNeedsBody
    (.request []) rfl rfl

/-- C7 counterexample: a two-step list whose second step lacks a step id.
The execution does fail with the configuration error, but only after the
first step's request has been dispatched: the trace holds one request, not
zero, contradicting the claim that no request of any step is issued. -/
theorem C7_counterexample_request_already_sent :
    execute_http_steps oracle200 [stepS1, stepNoId] none [] (.request []) none
      = (.error (.configError "Each step must include a unique 'step_id'."), [reqS1]) ∧
    (execute_http_steps oracle200 [stepS1, stepNoId] none [] (.request []) none).2.length = 1 :=
  ⟨rfl, rfl⟩

/-- C7 amended: a step lacking a step id fails the execution with the
configuration error when the loop reaches it, before that step's own
request (or any later step's) is issued; in particular, when the first
step lacks an id, the execution fails before any network call at all.
Requests of the steps before the offending one have already been sent. -/
theorem C7_missing_step_id_amended :
    (∀ (oracle : HttpRequest → HttpResponse) (scheme : Option AuthScheme)
        (provider : AuthProvider) (step : Step) (rest : List Step)
        (ctx : List (String × Json)) (trace : List HttpRequest),
        truthyStepId step.step_id = false →
        execAux oracle scheme provider (step :: rest) ctx trace
          = (.error (.configError "Each step must include a unique 'step_id'."), trace)) ∧
    (∀ (oracle : HttpRequest → HttpResponse) (scheme : Option AuthScheme)
        (pp : List (String × Json)) (provider : AuthProvider) (body : Option Json)
        (step : Step) (rest : List Step),
        truthyStepId step.step_id = false →
        execute_http_steps oracle (step :: rest) scheme pp provider body
          = (.error (.configError "Each step must include a unique 'step_id'."), [])) := by
  constructor
  · intro oracle scheme provider step rest ctx trace h
    simp [execAux, h]
  · intro oracle scheme pp provider body step rest h
    unfold execute_http_steps
    simp [execAux, h]

/-- C2: a non-2xx downstream response mid-chain aborts the whole execution
immediately: the error carries the downstream status and body, the trace
ends with the failing step's single request (no retry), no later step's
request is issued, and no result is returned. -/
theorem C2_non2xx_aborts (oracle : HttpRequest → HttpResponse) (scheme : Option AuthScheme)
    (provider : AuthProvider) (steps₁ steps₂ : List Step) (step : Step)
    (pp : List (String × Json)) (body : Option Json) (ctx' : List (String × Json))
    (tr' : List HttpRequest) (req : HttpRequest)
    (h1 : execAux oracle scheme provider steps₁ (initCtx pp body) [] = (.ok ctx', tr'))
    (h2 : truthyStepId step.step_id = true)
    (h3 : apply_auth (buildStepRequest step ctx') scheme provider = .ok req)
    (h4 : is2xx (oracle req).status = false) :
    execute_http_steps oracle (steps₁ ++ step :: steps₂) scheme pp provider body
      = (.error (.httpStatus (oracle req).status (oracle req).text), tr' ++ [req]) := by
  unfold execute_http_steps
  rw [execAux_append, h1]
  simp only [execAux, h2, if_true, h3, h4, Bool.false_eq_true, if_false]

/-- C2 witness: a three-step chain against a downstream that 500s the
second step's URL with body "boom": the run aborts with that status and
body after exactly the first two requests. -/
theorem C2_non2xx_aborts_witness :
    execute_http_steps oracleC2 [stepS1, stepS2, stepS3] none [] (.request []) none
      = (.error (.httpStatus 500 "boom"), [reqS1, reqS2]) :=
  C2_non2xx_aborts oracleC2 none (.request []) [stepS1] [stepS3] stepS2 [] none
    ctxAfterS1 [reqS1] reqS2 rfl rfl rfl rfl

/-- C5 counterexample: the credential is stored in the explicit header map
under exactly the scheme's key name, X-API-Key — yet apply_auth fails,
because the dict source is read by an exact lookup of the lowercased name;
only a map whose key is already lowercase is found.  This contradicts the
claim that the key name is read case-insensitively from either credential
source. -/
theorem C5_counterexample_dict_source_not_case_insensitive :
    headersGet (.dict [("X-API-Key", "k")]) "X-API-Key" = some "k" ∧
    apply_auth reqBare (some schemeXak) (.dict [("X-API-Key", "k")])
      = .error "Required auth header/key 'X-API-Key' not found." ∧
    apply_auth reqBare (some schemeXak) (.dict [("x-api-key", "k")])
      = .ok (setHeader reqBare "X-API-Key" "k") :=
  ⟨rfl, rfl, rfl⟩

/-- C5 amended: for an api-key/header scheme, the credential named by the
scheme's key name is read case-insensitively from inbound transport
headers, but from an explicit header map only by an exact lookup of the
lowercased key name; the found value is written onto the outgoing request
under the scheme's header name.  A scheme without a name, or an absent
credential value, raises the auth error — and any auth error leaves the
executor with an empty trace: it occurs before any downstream request is
sent. -/
theorem C5_api_key_auth_amended :
    (∀ (req : HttpRequest) (rawName v keyName : String) (rest : List (String × String)),
        strLower rawName = strLower keyName → v ≠ "" → keyName ≠ "" →
        apply_auth req (some ⟨some "apiKey", some "header", some keyName, none⟩)
            (.request ((rawName, v) :: rest))
          = .ok (setHeader req keyName v)) ∧
    (∀ (req : HttpRequest) (keyName v : String) (rest : List (String × String)),
        v ≠ "" → keyName ≠ "" →
        apply_auth req (some ⟨some "apiKey", some "header", some keyName, none⟩)
            (.dict ((strLower keyName, v) :: rest))
          = .ok (setHeader req keyName v)) ∧
    (∀ (req : HttpRequest) (provider : AuthProvider) (loc hsch : Option String),
        apply_auth req (some ⟨some "apiKey", loc, none, hsch⟩) provider
          = .error "Auth scheme of type 'apiKey' is missing a 'name'.") ∧
    (∀ (req : HttpRequest) (provider : AuthProvider) (keyName : String) (loc : Option String),
        keyName ≠ "" →
        headersGet provider (strLower keyName) = none →
        apply_auth req (some ⟨some "apiKey", loc, some keyName, none⟩) provider
          = .error ("Required auth header/key '" ++ keyName ++ "' not found.")) ∧
    (∀ (oracle : HttpRequest → HttpResponse) (scheme : Option AuthScheme)
        (provider : AuthProvider) (pp : List (String × Json)) (body : Option Json)
        (step : Step) (rest : List Step) (e : String),
        truthyStepId step.step_id = true →
        apply_auth (buildStepRequest step (initCtx pp body)) scheme provider = .error e →
        execute_http_steps oracle (step :: rest) scheme pp provider body
          = (.error (.authError e), [])) := by
  refine ⟨?_, ?_, ?_, ?_, ?_⟩
  · intro req rawName v keyName rest h1 h2 h3
    simp only [apply_auth, headersGet, List.find?_cons, strLower_idem, h1, beq_self_eq_true]
    simp [h2, h3]
  · intro req keyName v rest h2 h3
    simp only [apply_auth, headersGet, List.find?_cons, beq_self_eq_true]
    simp [h2, h3]
  · intro req provider loc hsch
    simp [apply_auth]
  · intro req provider keyName loc h1 h2
    simp [apply_auth, h1, h2]
  · intro oracle scheme provider pp body step rest e h1 h2
    unfold execute_http_steps
    simp [execAux, h1, h2]

theorem pruneObjList_eq_filterMap (kvs : List (String × Json)) :
    pruneObjList kvs
      = kvs.filterMap (fun p => (prune_unresolved p.2).map (fun w => (p.1, w))) := by
  induction kvs with
  | nil => rfl
  | cons p rest ih =>
    obtain ⟨k, v⟩ := p
    simp only [pruneObjList, List.filterMap_cons]
    cases hp : prune_unresolved v with
    | none => simpa using ih
    | some w => simpa using ih

theorem pruneArrList_eq_filterMap (xs : List Json) :
    pruneArrList xs = xs.filterMap prune_unresolved := by
  induction xs with
  | nil => rfl
  | cons v rest ih =>
    simp only [pruneArrList, List.filterMap_cons]
    cases hp : prune_unresolved v with
    | none => simpa using ih
    | some w => simpa using ih

/-- C4: prune_unresolved drops exactly the entries whose value is still a
string containing an unresolved placeholder — the claim's two concrete
examples, the string rule, and the membership characterisations for maps
and sequences — and in the step executor pruning touches only resolved
request bodies, never URLs: the built request's URL is always the bare
string substitution, and in the concrete run the unresolved placeholder
survives verbatim in the URL while the body entry holding it is pruned. -/
theorem C4_prune_unresolved_exact :
    prune_unresolved (.obj [("a", .str "$\x7bunset\x7d"), ("b", .num 1)])
      = some (.obj [("b", .num 1)]) ∧
    prune_unresolved (.arr [.str "$\x7bunset\x7d", .num 2]) = some (.arr [.num 2]) ∧
    (∀ (s : String),
        prune_unresolved (.str s) = if hasPlaceholder s then none else some (.str s)) ∧
    (∀ (kvs : List (String × Json)) (k : String) (w : Json),
        ((k, w) ∈ pruneObjList kvs ↔ ∃ v, (k, v) ∈ kvs ∧ prune_unresolved v = some w)) ∧
    (∀ (xs : List Json) (w : Json),
        (w ∈ pruneArrList xs ↔ ∃ v, v ∈ xs ∧ prune_unresolved v = some w)) ∧
    (∀ (step : Step) (ctx : List (String × Json)),
        (buildStepRequest step ctx).url = substitute_templates_in_string step.url (.obj ctx)) ∧
    execute_http_steps oracle200 [stepBodyFx] none [] (.request []) none
      = (.ok (.obj []),
         [⟨"POST", "http://x/$\x7bunset\x7d", [], [], some (some (.obj [("b", .num 1)]))⟩]) := by
  refine ⟨rfl, rfl, fun s => rfl, ?_, ?_, fun step ctx => rfl, rfl⟩
  · intro kvs k w
    rw [pruneObjList_eq_filterMap, List.mem_filterMap]
    constructor
    · rintro ⟨⟨k', v⟩, hmem, hmap⟩
      rw [Option.map_eq_some'] at hmap
      obtain ⟨w', hw', heq⟩ := hmap
      rw [Prod.mk.injEq] at heq
      obtain ⟨hk, hw⟩ := heq
      subst hk
      subst hw
      exact ⟨v, hmem, hw'⟩
    · rintro ⟨v, hmem, hp⟩
      exact ⟨(k, v), hmem, by simp [hp]⟩
  · intro xs w
    rw [pruneArrList_eq_filterMap, List.mem_filterMap]

theorem dictGet_cons {α : Type} (a : String) (b : α) (rest : List (String × α)) (k : String) :
    dictGet ((a, b) :: rest) k = if a == k then some b else dictGet rest k := by
  simp only [dictGet, List.find?_cons]
  cases h : a == k
  · simp [h]
  · simp [h]

theorem dictGet_dictSet_self {α : Type} (m : List (String × α)) (k : String) (v : α) :
    dictGet (dictSet m k v) k = some v := by
  induction m with
  | nil => simp [dictGet, dictSet]
  | cons p rest ih =>
    obtain ⟨k', v'⟩ := p
    simp only [dictSet]
    by_cases h : k' = k
    · simp [h, dictGet_cons]
    · simp only [if_neg h]
      rw [dictGet_cons, if_neg (by simpa using h)]
      exact ih

theorem dictGet_dictSet_ne {α : Type} (m : List (String × α)) (k n : String) (v : α)
    (h : n ≠ k) : dictGet (dictSet m k v) n = dictGet m n := by
  have hkn : ¬((k == n) = true) := by
    simp only [beq_iff_eq]
    exact fun e => h (Eq.symm e)
  induction m with
  | nil =>
    show dictGet [(k, v)] n = dictGet [] n
    rw [dictGet_cons, if_neg hkn]
  | cons p rest ih =>
    obtain ⟨k', v'⟩ := p
    simp only [dictSet]
    by_cases hk : k' = k
    · subst hk
      rw [if_pos rfl, dictGet_cons, dictGet_cons, if_neg hkn, if_neg hkn]
    · rw [if_neg hk, dictGet_cons, dictGet_cons]
      by_cases hn : k' = n
      · simp [hn]
      · have hb : ¬((k' == n) = true) := by
          simp only [beq_iff_eq]
          exact hn
        rw [if_neg hb, if_neg hb]
        exact ih

theorem dictGet_dictSet_isSome {α : Type} (m : List (String × α)) (k n : String) (v : α)
    (h : (dictGet m n).isSome = true) : (dictGet (dictSet m k v) n).isSome = true := by
  by_cases hk : n = k
  · subst hk
    rw [dictGet_dictSet_self]
    rfl
  · rwa [dictGet_dictSet_ne m k n v hk]

theorem onePass_processed_subset (schemas : List (String × SchemaDef)) :
    ∀ (tp : List String) (cache : List (String × ModelDef)),
      (onePass schemas tp cache).2 ⊆ tp := by
  intro tp
  induction tp with
  | nil => intro cache; simp [onePass]
  | cons name rest ih =>
    intro cache
    simp only [onePass]
    cases hb : buildFields cache ((dictGet schemas name).getD ⟨[], []⟩).required
        ((dictGet schemas name).getD ⟨[], []⟩).properties with
    | some fields =>
      intro x hx
      simp only [List.mem_cons] at hx ⊢
      cases hx with
      | inl he => exact Or.inl he
      | inr hm => exact Or.inr (ih _ hm)
    | none =>
      intro x hx
      exact List.mem_cons_of_mem _ (ih cache hx)

theorem onePass_cache_mono (schemas : List (String × SchemaDef)) :
    ∀ (tp : List String) (cache : List (String × ModelDef)) (n : String),
      (dictGet cache n).isSome = true →
      (dictGet (onePass schemas tp cache).1 n).isSome = true := by
  intro tp
  induction tp with
  | nil => intro cache n h; simpa [onePass] using h
  | cons name rest ih =>
    intro cache n h
    simp only [onePass]
    cases hb : buildFields cache ((dictGet schemas name).getD ⟨[], []⟩).required
        ((dictGet schemas name).getD ⟨[], []⟩).properties with
    | some fields => exact ih _ n (dictGet_dictSet_isSome _ _ _ _ h)
    | none => exact ih _ n h

theorem onePass_processed_in_cache (schemas : List (String × SchemaDef)) :
    ∀ (tp : List String) (cache : List (String × ModelDef)) (n : String),
      n ∈ (onePass schemas tp cache).2 →
      (dictGet (onePass schemas tp cache).1 n).isSome = true := by
  intro tp
  induction tp with
  | nil => intro cache n h; simp [onePass] at h
  | cons name rest ih =>
    intro cache n h
    simp only [onePass] at h ⊢
    cases hb : buildFields cache ((dictGet schemas name).getD ⟨[], []⟩).required
        ((dictGet schemas name).getD ⟨[], []⟩).properties with
    | some fields =>
      rw [hb] at h
      simp only [List.mem_cons] at h
      cases h with
      | inl he =>
        subst he
        exact onePass_cache_mono schemas rest _ n
          (by rw [dictGet_dictSet_self]; rfl)
      | inr hm => exact ih _ n hm
    | none =>
      rw [hb] at h
      exact ih _ n h

theorem modelLoop_spec (schemas : List (String × SchemaDef)) :
    ∀ (fuel : Nat) (tp : List String) (cache : List (String × ModelDef)),
      tp.length < fuel →
      (∃ c, modelLoop schemas fuel tp cache = .ok c ∧
          ∀ n, (n ∈ tp ∨ (dictGet cache n).isSome = true) → (dictGet c n).isSome = true) ∨
      (∃ rem, modelLoop schemas fuel tp cache = .error rem ∧ rem ≠ [] ∧ rem ⊆ tp) := by
  intro fuel
  induction fuel with
  | zero => intro tp cache h; omega
  | succ fuel ih =>
    intro tp cache h
    cases tp with
    | nil =>
      left
      refine ⟨cache, rfl, ?_⟩
      intro n hn
      cases hn with
      | inl hmem => simp at hmem
      | inr hs => exact hs
    | cons t tp' =>
      simp only [modelLoop]
      by_cases hemp : (onePass schemas (t :: tp') cache).2.isEmpty = true
      · right
        refine ⟨t :: tp', by simp [hemp], by simp, fun x hx => hx⟩
      · simp only [hemp, if_false]
        have hne : (onePass schemas (t :: tp') cache).2 ≠ [] := by
          simpa [List.isEmpty_iff] using hemp
        obtain ⟨x, hx⟩ := List.exists_mem_of_ne_nil _ hne
        have hx_tp : x ∈ t :: tp' := onePass_processed_subset schemas _ cache hx
        have hlen : ((t :: tp').filter
            (fun s => !(onePass schemas (t :: tp') cache).2.contains s)).length
            < (t :: tp').length := by
          rw [List.length_filter_lt_length_iff_exists]
          refine ⟨x, hx_tp, ?_⟩
          have hc : (onePass schemas (t :: tp') cache).2.contains x = true :=
            List.elem_iff.mpr hx
          simp only [hc, Bool.not_true, Bool.false_eq_true, not_false_eq_true]
        have hfuel : ((t :: tp').filter
            (fun s => !(onePass schemas (t :: tp') cache).2.contains s)).length < fuel := by
          have := h
          simp only [List.length_cons] at this hlen
          omega
        cases ih _ (onePass schemas (t :: tp') cache).1 hfuel with
        | inl hok =>
          obtain ⟨c, hc, hprop⟩ := hok
          left
          refine ⟨c, hc, ?_⟩
          intro n hn
          cases hn with
          | inl hmem =>
            by_cases hin : n ∈ (onePass schemas (t :: tp') cache).2
            · exact hprop n (Or.inr (onePass_processed_in_cache schemas _ cache n hin))
            · refine hprop n (Or.inl ?_)
              rw [List.mem_filter]
              refine ⟨hmem, ?_⟩
              simp only [Bool.not_eq_true']
              rw [← Bool.not_eq_true]
              intro hc
              exact hin (List.elem_iff.mp hc)
          | inr hs =>
            exact hprop n (Or.inr (onePass_cache_mono schemas _ cache n hs))
        | inr herr =>
          obtain ⟨rem, hr, hrne, hrsub⟩ := herr
          right
          refine ⟨rem, hr, hrne, ?_⟩
          intro y hy
          have := hrsub hy
          rw [List.mem_filter] at this
          exact this.1

/-- C9: the multi-pass model construction terminates on every schema table
within the built-in budget of (number of schemas + 1) passes: either every
schema's model lands in the cache, or the loop stops with the explicit
error naming a non-empty subset of the schemas it could not resolve — it
never exits the budget silently and never loops forever.  The concrete
mutually-referring pair is reported as circular. -/
theorem C9_model_creation_terminates :
    (∀ (schemas : List (String × SchemaDef)),
        (∃ cache, create_pydantic_models schemas = .ok cache ∧
            ∀ n, n ∈ schemas.map (fun p => p.1) → (dictGet cache n).isSome = true) ∨
        (∃ rem, create_pydantic_models schemas = .error rem ∧ rem ≠ [] ∧
            rem ⊆ schemas.map (fun p => p.1))) ∧
    create_pydantic_models circSchemas = .error ["A", "B"] := by
  constructor
  · intro schemas
    have h := modelLoop_spec schemas (schemas.length + 1) (schemas.map (fun p => p.1)) []
      (by simp)
    cases h with
    | inl hok =>
      obtain ⟨c, hc, hprop⟩ := hok
      exact Or.inl ⟨c, hc, fun n hn => hprop n (Or.inl hn)⟩
    | inr herr => exact Or.inr herr
  · rfl

theorem resolveToks_ok_to_spec :
    ∀ (toks : List PathTok) (data w : Json),
      resolveToks toks data = .ok w → ResolvesTo toks data w := by
  intro toks
  induction toks with
  | nil =>
    intro data w h
    simp only [resolveToks] at h
    injection h with hw
    subst hw
    exact .nil data
  | cons t rest ih =>
    intro data w h
    simp only [resolveToks] at h
    cases hres : resolveTok t data with
    | error e =>
      simp only [hres] at h
      exact Except.noConfusion h
    | ok u =>
      simp only [hres] at h
      have hrest := ih u w h
      cases t with
      | key k =>
        cases data with
        | obj kvs =>
          simp only [resolveTok] at hres
          cases hget : dictGet kvs k with
          | some v =>
            simp only [hget] at hres
            injection hres with hu
            subst hu
            exact .key k rest kvs v w hget hrest
          | none =>
            simp only [hget] at hres
            exact Except.noConfusion hres
        | null => simp [resolveTok] at hres
        | bool b => simp [resolveTok] at hres
        | num n => simp [resolveTok] at hres
        | str s => simp [resolveTok] at hres
        | arr xs => simp [resolveTok] at hres
      | idx n =>
        cases data with
        | arr xs =>
          simp only [resolveTok] at hres
          by_cases hn : n < xs.length
          · rw [dif_pos hn] at hres
            injection hres with hu
            refine .arrIdx n rest xs u w ?_ hrest
            rw [List.get?_eq_some]
            exact ⟨hn, hu⟩
          · rw [dif_neg hn] at hres
            exact Except.noConfusion hres
        | str s =>
          simp only [resolveTok] at hres
          by_cases hn : n < s.data.length
          · rw [dif_pos hn] at hres
            injection hres with hu
            refine .strIdx n rest s (s.data.get ⟨n, hn⟩) w ?_ ?_
            · rw [List.get?_eq_some]
              exact ⟨hn, rfl⟩
            · rw [← hu] at hrest
              exact hrest
          · rw [dif_neg hn] at hres
            exact Except.noConfusion hres
        | null => simp [resolveTok] at hres
        | bool b => simp [resolveTok] at hres
        | num m => simp [resolveTok] at hres
        | obj kvs => simp [resolveTok] at hres

theorem spec_to_resolveToks_ok :
    ∀ {toks : List PathTok} {data w : Json},
      ResolvesTo toks data w → resolveToks toks data = .ok w := by
  intro toks data w h
  induction h with
  | nil v => rfl
  | key k rest kvs v w hget _ ihr =>
    simp only [resolveToks, resolveTok, hget]
    exact ihr
  | arrIdx n rest xs v w hget _ ihr =>
    rw [List.get?_eq_some] at hget
    obtain ⟨hn, hv⟩ := hget
    have hstep : resolveTok (.idx n) (.arr xs) = .ok v := by
      simp only [resolveTok]
      rw [dif_pos hn, hv]
    simp only [resolveToks, hstep]
    exact ihr
  | strIdx n rest s c w hget _ ihr =>
    rw [List.get?_eq_some] at hget
    obtain ⟨hn, hv⟩ := hget
    have hstep : resolveTok (.idx n) (.str s) = .ok (.str (String.mk [c])) := by
      simp only [resolveTok]
      rw [dif_pos hn, hv]
    simp only [resolveToks, hstep]
    exact ihr

/-- C3 counterexample: the path a.0 applies a numeric index to the string
value "hi" — a scalar, not a sequence, in the configuration language's
data model — yet resolution succeeds with the character "h" instead of
failing with a path-resolution error as the claim requires. -/
theorem C3_counterexample_string_indexing :
    resolve_value "a.0" ctxStr = .ok (.str "h") ∧
    (resolve_value "a.0" ctxStr).isOk = true :=
  ⟨rfl, rfl⟩

/-- C3 amended: resolution of a token path succeeds exactly on the
derivations of ResolvesTo — keys into maps, in-range indexes into
sequences, and (as the code additionally allows, since Python strings are
sequences) in-range indexes into strings, yielding the one-character
string at that position; it fails with a path-resolution error exactly
when no such derivation exists (absent key, out-of-range index, index
into a value that is neither a sequence nor a string, key into a
non-map).  resolve_value is the token loop applied to the parsed
dot/bracket path; the sample path grammar parses as claimed and a fully
matching path returns the exact leaf with its original type. -/
theorem C3_path_resolution_amended :
    (∀ (toks : List PathTok) (data w : Json),
        resolveToks toks data = .ok w ↔ ResolvesTo toks data w) ∧
    (∀ (path : String) (data : Json),
        resolve_value path data = resolveToks (parse_path_tokens path) data) ∧
    (∀ (toks : List PathTok) (data : Json),
        ((¬ ∃ w, ResolvesTo toks data w) ↔ ∃ e, resolveToks toks data = .error e)) ∧
    parse_path_tokens "foo.bar[0].baz" = [.key "foo", .key "bar", .idx 0, .key "baz"] ∧
    resolve_value "a.b[0].c" (.obj [("a", .obj [("b", .arr [.obj [("c", .num 42)]])])])
      = .ok (.num 42) := by
  refine ⟨?_, fun path data => rfl, ?_, rfl, rfl⟩
  · intro toks data w
    exact ⟨resolveToks_ok_to_spec toks data w, spec_to_resolveToks_ok⟩
  · intro toks data
    cases hv : resolveToks toks data with
    | ok u =>
      constructor
      · intro hno
        exact (hno ⟨u, resolveToks_ok_to_spec toks data u hv⟩).elim
      · rintro ⟨e, he⟩
        exact Except.noConfusion he
    | error e =>
      constructor
      · intro _
        exact ⟨e, rfl⟩
      · rintro ⟨e', -⟩ ⟨u, hu⟩
        have := spec_to_resolveToks_ok hu
        rw [hv] at this
        exact Except.noConfusion this

theorem subGo_nil (data : Json) : ∀ (fuel : Nat), subGo data fuel [] = [] := by
  intro fuel
  cases fuel <;> rfl

theorem subGo_fuel_irrel (data : Json) :
    ∀ (fuel fuel' : Nat) (cs : List Char), cs.length ≤ fuel → cs.length ≤ fuel' →
      subGo data fuel cs = subGo data fuel' cs := by
  intro fuel
  induction fuel with
  | zero =>
    intro fuel' cs h _
    have : cs = [] := List.length_eq_zero.mp (Nat.le_zero.mp h)
    subst this
    rw [subGo_nil, subGo_nil]
  | succ fuel ih =>
    intro fuel' cs h h'
    cases fuel' with
    | zero =>
      have : cs = [] := List.length_eq_zero.mp (Nat.le_zero.mp h')
      subst this
      rw [subGo_nil, subGo_nil]
    | succ fuel' =>
      simp only [subGo]
      cases hf : findPH cs with
      | none => rfl
      | some t =>
        obtain ⟨pre, mid, after⟩ := t
        have hlt := findPH_length hf
        show pre ++ replaceOne data mid ++ subGo data fuel after
            = pre ++ replaceOne data mid ++ subGo data fuel' after
        congr 1
        exact ih fuel' after (by omega) (by omega)

theorem findClose_append (mid post : List Char)
    (h1 : ¬ rbrace ∈ mid) (h2 : ¬ '\n' ∈ mid) :
    findClose (mid ++ rbrace :: post) = some (mid, post) := by
  induction mid with
  | nil => simp [findClose]
  | cons c cs ih =>
    simp only [List.cons_append, findClose]
    rw [if_neg (fun e => h1 (by simp [e])), if_neg (fun e => h2 (by simp [e]))]
    simp only [List.append_eq]
    rw [ih (fun m => h1 (List.mem_cons_of_mem c m)) (fun m => h2 (List.mem_cons_of_mem c m))]
    rfl

theorem findPH_append (pre mid post : List Char)
    (hpre : ¬ '$' ∈ pre) (h1 : ¬ rbrace ∈ mid) (h2 : ¬ '\n' ∈ mid) :
    findPH (pre ++ '$' :: lbrace :: (mid ++ rbrace :: post)) = some (pre, mid, post) := by
  induction pre with
  | nil =>
    simp only [List.nil_append, findPH]
    rw [if_pos (by simp)]
    simp only [List.tail_cons]
    rw [findClose_append mid post h1 h2]
  | cons c cs ih =>
    simp only [List.cons_append, findPH]
    rw [if_neg (fun hand => hpre (by simp [hand.1]))]
    simp only [List.append_eq]
    rw [ih (fun m => hpre (List.mem_cons_of_mem c m))]
    rfl

theorem subGo_boundary (data : Json) (pre mid post : List Char) (fuel : Nat)
    (hfuel : (pre ++ '$' :: lbrace :: (mid ++ rbrace :: post)).length ≤ fuel)
    (hpre : ¬ '$' ∈ pre) (h1 : ¬ rbrace ∈ mid) (h2 : ¬ '\n' ∈ mid) :
    subGo data fuel (pre ++ '$' :: lbrace :: (mid ++ rbrace :: post))
      = pre ++ replaceOne data mid ++ subGo data post.length post := by
  cases fuel with
  | zero =>
    exfalso
    simp only [List.length_append, List.length_cons] at hfuel
    omega
  | succ f =>
    simp only [subGo]
    rw [findPH_append pre mid post hpre h1 h2]
    show pre ++ replaceOne data mid ++ subGo data f post
        = pre ++ replaceOne data mid ++ subGo data post.length post
    congr 1
    apply subGo_fuel_irrel
    · simp only [List.length_append, List.length_cons] at hfuel
      omega
    · exact Nat.le_refl _

theorem substitute_inline (data : Json) (pre path post : String)
    (hpre : ¬ '$' ∈ pre.data) (h1 : ¬ rbrace ∈ path.data) (h2 : ¬ '\n' ∈ path.data) :
    substitute_templates_in_string (pre ++ "$\x7b" ++ path ++ "\x7d" ++ post) data
      = pre ++ String.mk (replaceOne data path.data)
          ++ substitute_templates_in_string post data := by
  have hd : (pre ++ "$\x7b" ++ path ++ "\x7d" ++ post).data
      = pre.data ++ '$' :: lbrace :: (path.data ++ rbrace :: post.data) := by
    have hl : lbrace = '\x7b' := rfl
    have hr : rbrace = '\x7d' := rfl
    simp only [String.data_append, hl, hr]
    simp
  unfold substitute_templates_in_string
  rw [hd]
  rw [subGo_boundary data pre.data path.data post.data _ (Nat.le_refl _) hpre h1 h2]
  rfl

theorem fullmatchPH_of_shape (path : String) (h2 : ¬ '\n' ∈ path.data) :
    fullmatchPH ("$\x7b" ++ path ++ "\x7d") = some path := by
  have hd : ("$\x7b" ++ path ++ "\x7d").data = '$' :: lbrace :: (path.data ++ [rbrace]) := by
    have hl : lbrace = '\x7b' := rfl
    have hr : rbrace = '\x7d' := rfl
    simp only [String.data_append, hl, hr]
    simp
  unfold fullmatchPH
  rw [hd]
  simp only [fullmatchList]
  rw [if_pos ?_]
  · rw [List.dropLast_concat]
    rfl
  · refine ⟨by simp, by simp, List.getLast?_concat _, ?_⟩
    rw [List.dropLast_concat, List.all_eq_true]
    intro c hc
    simp only [decide_eq_true_eq]
    intro he
    exact h2 (he ▸ hc)

/-- C1 counterexample: the string holding the two placeholders of a and b
separated by a space — a placeholder together with other characters — is
returned entirely unchanged by resolve_in_value instead of being
substituted to "1 2": because it starts with a dollar-lbrace and ends
with rbrace, the lazy fullmatch treats the whole string as one placeholder
whose path (the text between the outer braces) does not resolve.  The
inline substitution the claim prescribes would have produced "1 2". -/
theorem C1_counterexample_adjacent_placeholders :
    resolve_templates_in_obj (.str "$\x7ba\x7d $\x7bb\x7d") ctxAB
      = .str "$\x7ba\x7d $\x7bb\x7d" ∧
    substitute_templates_in_string "$\x7ba\x7d $\x7bb\x7d" ctxAB = "1 2" ∧
    ¬ (resolve_templates_in_obj (.str "$\x7ba\x7d $\x7bb\x7d") ctxAB = .str "1 2") := by
  refine ⟨rfl, rfl, fun h => ?_⟩
  rw [show resolve_templates_in_obj (.str "$\x7ba\x7d $\x7bb\x7d") ctxAB
      = Json.str "$\x7ba\x7d $\x7bb\x7d" from rfl] at h
  injection h with hs
  exact absurd hs (by decide)

/-- C1 amended: a string that is in full one placeholder whose path
resolves yields the raw typed value (never its string form); a string the
whole-string pattern does not match goes through inline substitution,
where each placeholder with no right brace or newline in its path and no
dollar before it substitutes in place — the resolved value stringified as
null to "null", booleans to "true"/"false", objects and sequences to
compact JSON text, numbers and strings to their natural string form, and
an unresolvable path left verbatim.  (A string that contains a
placeholder among other characters but still starts with the
dollar-lbrace and ends with the rbrace — e.g. two adjacent placeholders —
is captured whole by the lazy fullmatch instead, see the
counterexample.) -/
theorem C1_type_preserving_resolution_amended :
    (∀ (data : Json) (path : String) (v : Json),
        ¬ '\n' ∈ path.data →
        resolve_value (pyStrip path) data = .ok v →
        resolve_templates_in_obj (.str ("$\x7b" ++ path ++ "\x7d")) data = v) ∧
    (∀ (data : Json) (s : String),
        fullmatchPH s = none →
        resolve_templates_in_obj (.str s) data
          = .str (substitute_templates_in_string s data)) ∧
    (∀ (data : Json) (pre path post : String),
        ¬ '$' ∈ pre.data → ¬ rbrace ∈ path.data → ¬ '\n' ∈ path.data →
        substitute_templates_in_string (pre ++ "$\x7b" ++ path ++ "\x7d" ++ post) data
          = pre ++ String.mk (replaceOne data path.data)
              ++ substitute_templates_in_string post data) ∧
    (∀ (data : Json) (path : String) (v : Json),
        resolve_value (pyStrip path) data = .ok v →
        String.mk (replaceOne data path.data) = stringifyInline v) ∧
    (∀ (data : Json) (path : String) (e : String),
        resolve_value (pyStrip path) data = .error e →
        String.mk (replaceOne data path.data) = "$\x7b" ++ path ++ "\x7d") ∧
    stringifyInline .null = "null" ∧
    (∀ (b : Bool), stringifyInline (.bool b) = cond b "true" "false") ∧
    (∀ (n : Int), stringifyInline (.num n) = toString n) ∧
    (∀ (s : String), stringifyInline (.str s) = s) ∧
    (∀ (kvs : List (String × Json)), stringifyInline (.obj kvs) = dumpCompact (.obj kvs)) ∧
    (∀ (xs : List Json), stringifyInline (.arr xs) = dumpCompact (.arr xs)) := by
  refine ⟨?_, ?_, substitute_inline, ?_, ?_, rfl, fun b => rfl, fun n => rfl, fun s => rfl,
    fun kvs => rfl, fun xs => rfl⟩
  · intro data path v h2 hres
    simp only [resolve_templates_in_obj]
    rw [fullmatchPH_of_shape path h2]
    show (match resolve_value (pyStrip path) data with
      | Except.ok v => v
      | Except.error _ => Json.str ("$\x7b" ++ path ++ "\x7d")) = v
    rw [hres]
  · intro data s hnone
    simp only [resolve_templates_in_obj]
    rw [hnone]
  · intro data path v hres
    simp only [replaceOne]
    rw [show String.mk path.data = path from rfl, hres]
  · intro data path e hres
    simp only [replaceOne]
    rw [show String.mk path.data = path from rfl, hres]
    have hl : lbrace = '\x7b' := rfl
    have hr : rbrace = '\x7d' := rfl
    show String.mk ('$' :: lbrace :: (path.data ++ [rbrace])) = _
    rw [hl, hr]
    have : ("$\x7b" ++ path ++ "\x7d").data
        = '$' :: '\x7b' :: (path.data ++ ['\x7d']) := by
      simp [String.data_append]
    rw [show ("$\x7b" ++ path ++ "\x7d") = String.mk ('$' :: '\x7b' :: (path.data ++ ['\x7d']))
      from by rw [← this]]

/-- C1 witness: the amended theorem instantiated on concrete inputs — a
whole-string placeholder over a boolean, a list and null returns the raw
typed value, and the same reference embedded inline stringifies. -/
theorem C1_type_preserving_resolution_amended_witness :
    resolve_templates_in_obj (.str "$\x7bx\x7d") ctxX = .bool true ∧
    resolve_templates_in_obj (.str "$\x7bl\x7d")
      (.obj [("l", .arr [.num 1, .num 2]), ("n", .null)]) = .arr [.num 1, .num 2] ∧
    resolve_templates_in_obj (.str "$\x7bn\x7d")
      (.obj [("l", .arr [.num 1, .num 2]), ("n", .null)]) = .null ∧
    substitute_templates_in_string "v=$\x7bx\x7d and $\x7bl\x7d"
      (.obj [("x", .bool true), ("l", .arr [.num 1, .num 2])])
      = "v=true and [1,2]" :=
  ⟨C1_type_preserving_resolution_amended.1 ctxX "x" (.bool true) (by decide) rfl,
   C1_type_preserving_resolution_amended.1 _ "l" (.arr [.num 1, .num 2]) (by decide) rfl,
   C1_type_preserving_resolution_amended.1 _ "n" .null (by decide) rfl,
   rfl⟩

/-- C5 witness: the amended theorem instantiated concretely — the live
request source is read case-insensitively (stored lowercase, scheme name
mixed case), and a lowercase explicit map is found by the exact lowered
lookup. -/
theorem C5_api_key_auth_amended_witness :
    apply_auth reqBare (some ⟨some "apiKey", some "header", some "X-API-Key", none⟩)
      (.request [("x-api-key", "k")]) = .ok (setHeader reqBare "X-API-Key" "k") ∧
    apply_auth reqBare (some ⟨some "apiKey", some "header", some "X-API-Key", none⟩)
      (.dict [("x-api-key", "k")]) = .ok (setHeader reqBare "X-API-Key" "k") :=
  ⟨C5_api_key_auth_amended.1 reqBare "x-api-key" "k" "X-API-Key" [] rfl (by decide) (by decide),
   C5_api_key_auth_amended.2.1 reqBare "X-API-Key" "k" [] (by decide) (by decide)⟩
